import Mathlib

/-!
Verification of the SPICE essential-gates netlist writer
(`spice_essential_gates.cpp`): width binning, power-gate chains,
multi-stage buffer stitching, and the synthesis driver.

Floats of the source are modelled as exact rationals; the emitted text is
modelled as lists of line strings, one `fp << ...`-sequence per line.
-/

namespace SpiceEssentialGates

/-- Transistor polarity, as in `e_tech_lib_transistor_type`. -/
inductive TransType where
  | pmos
  | nmos
deriving DecidableEq

/-- Status codes `CMD_EXEC_SUCCESS` / `CMD_EXEC_FATAL_ERROR`. -/
inductive CmdStatus where
  | success
  | fatal
deriving DecidableEq

/-!
## Width binner

From `print_spice_regular_inverter_subckt` (and the identical blocks in the
power-gated and buffer variants):
`num_bins = ceil(total/max)`, `last = fmod(total, max)`; bin `i` gets
`max`, except the last bin gets `last` when `last ≠ 0`.
-/

/-- Executable floor of a rational (`⌊q⌋`). -/
def floorQ (q : ℚ) : ℤ := q.num / (q.den : ℤ)

/-- Executable ceiling of a rational (`⌈q⌉`), as used by `std::ceil`. -/
def ceilQ (q : ℚ) : ℤ := -floorQ (-q)

lemma floorQ_eq (q : ℚ) : floorQ q = ⌊q⌋ := (Rat.floor_def).symm

lemma ceilQ_eq (q : ℚ) : ceilQ q = ⌈q⌉ := by
  unfold ceilQ
  rw [floorQ_eq, Int.floor_neg, neg_neg]

/-- `int num_pmos_bins = std::ceil(total_pmos_width / regular_pmos_bin_width)`. -/
def num_bins (total maxw : ℚ) : ℤ := ceilQ (total / maxw)

/-- `float last_pmos_bin_width = std::fmod(total_pmos_width, regular_pmos_bin_width)`;
for nonnegative arguments `fmod(x, y) = x - y * floor (x / y)`. -/
def last_bin_width (total maxw : ℚ) : ℚ := total - maxw * floorQ (total / maxw)

lemma num_bins_eq_ceil (total maxw : ℚ) : num_bins total maxw = ⌈total / maxw⌉ := by
  unfold num_bins
  rw [ceilQ_eq]

lemma last_bin_width_eq_floor (total maxw : ℚ) :
    last_bin_width total maxw = total - maxw * ⌊total / maxw⌋ := by
  unfold last_bin_width
  rw [floorQ_eq]

/-- Body of the bin loop: `curr_bin_width = regular_..._bin_width` unless this is
the last bin and the remainder is nonzero. -/
def bin_width_at (total maxw : ℚ) (ibin : ℕ) : ℚ :=
  if ibin = (num_bins total maxw).toNat - 1 ∧ last_bin_width total maxw ≠ 0 then
    last_bin_width total maxw
  else
    maxw

/-- The ordered sequence of widths the bin loop feeds to the stage emitter. -/
def bin_widths (total maxw : ℚ) : List ℚ :=
  (List.range (num_bins total maxw).toNat).map (bin_width_at total maxw)

lemma last_bin_width_eq_fract (total maxw : ℚ) (hm : maxw ≠ 0) :
    last_bin_width total maxw = maxw * Int.fract (total / maxw) := by
  rw [last_bin_width_eq_floor, Int.fract]
  field_simp

lemma last_bin_width_nonneg (total maxw : ℚ) (hm : 0 < maxw) :
    0 ≤ last_bin_width total maxw := by
  rw [last_bin_width_eq_fract total maxw (ne_of_gt hm)]
  exact mul_nonneg (le_of_lt hm) (Int.fract_nonneg _)

lemma last_bin_width_lt (total maxw : ℚ) (hm : 0 < maxw) :
    last_bin_width total maxw < maxw := by
  rw [last_bin_width_eq_fract total maxw (ne_of_gt hm)]
  calc maxw * Int.fract (total / maxw) < maxw * 1 :=
        (mul_lt_mul_left hm).mpr (Int.fract_lt_one _)
    _ = maxw := mul_one maxw

lemma total_decompose (total maxw : ℚ) :
    total = maxw * ⌊total / maxw⌋ + last_bin_width total maxw := by
  rw [last_bin_width_eq_floor]
  ring

lemma floor_nonneg_of_pos (total maxw : ℚ) (ht : 0 < total) (hm : 0 < maxw) :
    0 ≤ ⌊total / maxw⌋ :=
  Int.floor_nonneg.mpr (le_of_lt (div_pos ht hm))

lemma div_decompose (total maxw : ℚ) (hm : 0 < maxw) :
    total / maxw = (⌊total / maxw⌋ : ℚ) + last_bin_width total maxw / maxw := by
  have hd := total_decompose total maxw
  field_simp
  linear_combination hd

lemma num_bins_of_zero_rem (total maxw : ℚ) (hm : 0 < maxw)
    (h : last_bin_width total maxw = 0) :
    num_bins total maxw = ⌊total / maxw⌋ := by
  have hdiv : total / maxw = (⌊total / maxw⌋ : ℚ) := by
    have := div_decompose total maxw hm
    rw [h] at this
    simpa using this
  rw [num_bins_eq_ceil]
  conv_lhs => rw [hdiv]
  exact Int.ceil_intCast _

lemma num_bins_of_pos_rem (total maxw : ℚ) (hm : 0 < maxw)
    (h : last_bin_width total maxw ≠ 0) :
    num_bins total maxw = ⌊total / maxw⌋ + 1 := by
  have h0 : 0 ≤ last_bin_width total maxw := last_bin_width_nonneg total maxw hm
  have hpos : 0 < last_bin_width total maxw := lt_of_le_of_ne h0 (Ne.symm h)
  have hlt : last_bin_width total maxw < maxw := last_bin_width_lt total maxw hm
  have hkey := div_decompose total maxw hm
  have hfrac0 : 0 < last_bin_width total maxw / maxw := div_pos hpos hm
  have hfrac1 : last_bin_width total maxw / maxw < 1 := (div_lt_one hm).mpr hlt
  rw [num_bins_eq_ceil, Int.ceil_eq_iff]
  refine ⟨?_, ?_⟩
  · push_cast
    linarith
  · push_cast
    linarith

lemma floor_pos_of_zero_rem (total maxw : ℚ) (ht : 0 < total) (hm : 0 < maxw)
    (h : last_bin_width total maxw = 0) :
    1 ≤ ⌊total / maxw⌋ := by
  have hq := floor_nonneg_of_pos total maxw ht hm
  by_contra hcon
  push_neg at hcon
  have hle : ⌊total / maxw⌋ ≤ 0 := Int.lt_add_one_iff.mp (by simpa using hcon)
  have hq0 : ⌊total / maxw⌋ = 0 := le_antisymm hle hq
  have hd := total_decompose total maxw
  rw [h, add_zero, hq0] at hd
  norm_num at hd
  linarith

/-- Structure of the bins when the remainder is zero: all bins are full. -/
lemma bin_widths_of_zero_rem (total maxw : ℚ) (h : last_bin_width total maxw = 0) :
    bin_widths total maxw =
      List.replicate (num_bins total maxw).toNat maxw := by
  unfold bin_widths bin_width_at
  simp [h]

/-- Structure of the bins when the remainder is nonzero: full bins then the
remainder. -/
lemma bin_widths_of_pos_rem (total maxw : ℚ) (hm : 0 < maxw)
    (ht : 0 < total) (h : last_bin_width total maxw ≠ 0) :
    bin_widths total maxw =
      List.replicate (⌊total / maxw⌋).toNat maxw ++ [last_bin_width total maxw] := by
  obtain ⟨k, hk⟩ := Int.eq_ofNat_of_zero_le (floor_nonneg_of_pos total maxw ht hm)
  have hn := num_bins_of_pos_rem total maxw hm h
  rw [hk] at hn
  have htn : (num_bins total maxw).toNat = k + 1 := by
    rw [hn]
    exact Int.toNat_ofNat _
  rw [hk]
  simp only [Int.toNat_ofNat]
  unfold bin_widths
  rw [htn, List.range_succ, List.map_append]
  congr 1
  · have hconst : ∀ i ∈ List.range k, bin_width_at total maxw i = maxw := by
      intro i hi
      rw [List.mem_range] at hi
      unfold bin_width_at
      rw [htn]
      simp only [Nat.add_sub_cancel]
      rw [if_neg]
      intro hcon
      exact absurd hcon.1 (Nat.ne_of_lt hi)
    rw [List.map_congr_left hconst]
    simp
  · simp only [List.map_cons, List.map_nil]
    congr 1
    unfold bin_width_at
    rw [htn]
    simp [h]

lemma toNat_cast_of_floor (total maxw : ℚ) (ht : 0 < total) (hm : 0 < maxw) :
    ((((⌊total / maxw⌋).toNat : ℕ)) : ℚ) = ((⌊total / maxw⌋ : ℤ) : ℚ) := by
  have h2 : ((⌊total / maxw⌋).toNat : ℤ) = ⌊total / maxw⌋ :=
    Int.toNat_of_nonneg (floor_nonneg_of_pos total maxw ht hm)
  exact_mod_cast h2

lemma bin_widths_length (total maxw : ℚ) :
    (bin_widths total maxw).length = (num_bins total maxw).toNat := by
  unfold bin_widths
  simp

lemma bin_widths_getD_of_not_last (total maxw : ℚ) (i : ℕ)
    (h : i + 1 < (bin_widths total maxw).length) :
    (bin_widths total maxw).getD i 0 = maxw := by
  have hlen := bin_widths_length total maxw
  have hi : i < (bin_widths total maxw).length := Nat.lt_of_succ_lt h
  rw [List.getD_eq_getElem _ _ hi]
  unfold bin_widths at hi ⊢
  simp only [List.getElem_map, List.getElem_range]
  unfold bin_width_at
  rw [if_neg]
  rintro ⟨h1, _⟩
  rw [hlen] at h
  revert h h1
  generalize (num_bins total maxw).toNat = m
  intro h h1
  omega

/-- C1: Width binning. For every `total_width > 0` and `max_width > 0`, the
sequence of bin widths emitted for one polarity of one stage sums exactly to
`total_width`, has every element `≤ max_width`, has every element other than
the last equal to `max_width`, and has a nonzero last bin (in particular an
exact multiple of `max_width` never yields a zero-width last bin). -/
theorem width_binning_correct (total maxw : ℚ) (htotal : 0 < total) (hmax : 0 < maxw) :
    (bin_widths total maxw).sum = total
    ∧ (∀ w ∈ bin_widths total maxw, w ≤ maxw)
    ∧ (∀ i : ℕ, i + 1 < (bin_widths total maxw).length →
        (bin_widths total maxw).getD i 0 = maxw)
    ∧ (bin_widths total maxw).getLastD 0 ≠ 0 := by
  obtain ⟨k, hk⟩ := Int.eq_ofNat_of_zero_le (floor_nonneg_of_pos total maxw htotal hmax)
  have hdC := total_decompose total maxw
  by_cases h : last_bin_width total maxw = 0
  · have hstruct := bin_widths_of_zero_rem total maxw h
    have hn := num_bins_of_zero_rem total maxw hmax h
    have hk1 : 1 ≤ k := by
      have hfp := floor_pos_of_zero_rem total maxw htotal hmax h
      rw [hk] at hfp
      exact_mod_cast hfp
    have htn : (num_bins total maxw).toNat = k := by
      rw [hn, hk]
      exact Int.toNat_ofNat _
    rw [htn] at hstruct
    have htot : total = maxw * (k : ℚ) := by
      rw [h, add_zero, hk] at hdC
      push_cast at hdC
      exact hdC
    refine ⟨?_, ?_, ?_, ?_⟩
    · rw [hstruct, List.sum_replicate, nsmul_eq_mul, htot]
      ring
    · intro w hw
      rw [hstruct] at hw
      rw [List.eq_of_mem_replicate hw]
    · intro i hi
      exact bin_widths_getD_of_not_last total maxw i hi
    · rw [hstruct]
      obtain ⟨m, rfl⟩ := Nat.exists_eq_add_of_le hk1
      rw [show 1 + m = m + 1 by omega, List.replicate_succ', List.getLastD_concat]
      exact ne_of_gt hmax
  · have hstruct := bin_widths_of_pos_rem total maxw hmax htotal h
    rw [hk] at hstruct
    simp only [Int.toNat_ofNat] at hstruct
    have hlbw0 : 0 ≤ last_bin_width total maxw := last_bin_width_nonneg total maxw hmax
    have hlbwlt : last_bin_width total maxw < maxw := last_bin_width_lt total maxw hmax
    have htot : total = maxw * (k : ℚ) + last_bin_width total maxw := by
      rw [hk] at hdC
      push_cast at hdC
      exact hdC
    refine ⟨?_, ?_, ?_, ?_⟩
    · rw [hstruct, List.sum_append, List.sum_replicate, nsmul_eq_mul,
        List.sum_cons, List.sum_nil]
      linarith
    · intro w hw
      rw [hstruct, List.mem_append] at hw
      rcases hw with hw | hw
      · rw [List.eq_of_mem_replicate hw]
      · simp at hw
        rw [hw]
        exact le_of_lt hlbwlt
    · intro i hi
      exact bin_widths_getD_of_not_last total maxw i hi
    · rw [hstruct, List.getLastD_concat]
      exact h

/-- Witness for C1 at `total_width = 5/2`, `max_width = 1`
(the spec's own example `2.5 / 1.0 → [1.0, 1.0, 0.5]`). -/
theorem width_binning_correct_witness :
    (0 : ℚ) < 5/2 ∧ (0 : ℚ) < 1
    ∧ ((bin_widths (5/2) 1).sum = 5/2
       ∧ (∀ w ∈ bin_widths (5/2) 1, w ≤ 1)
       ∧ (∀ i : ℕ, i + 1 < (bin_widths (5/2) 1).length →
           (bin_widths (5/2) 1).getD i 0 = 1)
       ∧ (bin_widths (5/2) 1).getLastD 0 ≠ 0) :=
  ⟨by norm_num, by norm_num,
    width_binning_correct (5/2) 1 (by norm_num) (by norm_num)⟩

/-!
## Data model

Read-only circuit / technology query interfaces, as consumed by
`spice_essential_gates.cpp`.  A port's pins are indexed `0..size-1`
(`circuit_lib.pins(port)`).
-/

/-- A circuit model port: its name stem (`circuit_lib.port_prefix`) and its
pin count (`circuit_lib.port_size`). -/
structure CircuitPort where
  pfx : String
  size : ℕ
deriving DecidableEq

/-- `circuit_lib.pins(port)`: the pin indices `0..size-1`. -/
def pins (p : CircuitPort) : List ℕ := List.range p.size

/-- `e_circuit_model_type` values relevant to this pass. -/
inductive CircuitModelType where
  | invbuf
  | passgate
  | gate
  | other
deriving DecidableEq

/-- `CIRCUIT_MODEL_BUF_INV` / `CIRCUIT_MODEL_BUF_BUF`. -/
inductive BufType where
  | bufInv
  | bufBuf
deriving DecidableEq

/-- A circuit model as queried through the circuit library interface. -/
structure CircuitModel where
  model_name : String
  model_type : CircuitModelType
  buffer_type : BufType
  is_power_gated : Bool
  buffer_size : ℚ
  buffer_num_levels : ℕ
  buffer_f_per_stage : ℚ
  input_ports : List CircuitPort
  output_ports : List CircuitPort
  en_port : Option CircuitPort
  enb_port : Option CircuitPort
  model_circuit_netlist : String
deriving DecidableEq

/-- A technology model as queried through the technology library interface. -/
structure TechModel where
  model_ref : String
  is_transistor : Bool
  trans_name : TransType → String
  chan_length : TransType → ℚ
  min_width : TransType → ℚ
  max_width : TransType → ℚ
  pnRatioVal : ℚ

/-!
## Emitted text model

Every `fp << ...;` sequence ending in `"\n"` becomes one line; a line is the
list of its chunks, where each float printed with `std::setprecision(10)`
becomes a `num` chunk and everything else a `str` chunk.
-/

/-- One printed piece of a line: literal text, or a formatted float value. -/
inductive Chunk where
  | str (s : String)
  | num (q : ℚ)
deriving DecidableEq

/-- One emitted netlist line. -/
abbrev SpiceLine := List Chunk

/-- The textual content of a line with the float renderings elided:
concatenation of the `str` chunks.  All net/name tokens of a device line sit
entirely inside `str` chunks (floats only occur after `W=`/`L=`). -/
def lineTextStr : SpiceLine → String
  | [] => ""
  | Chunk.str s :: rest => s ++ lineTextStr rest
  | Chunk.num _ :: rest => lineTextStr rest

def splitTokensAux : List Char → List Char → List String
  | [], acc => if acc.isEmpty then [] else [String.mk acc.reverse]
  | c :: cs, acc =>
    if c = ' ' then
      if acc.isEmpty then splitTokensAux cs []
      else String.mk acc.reverse :: splitTokensAux cs []
    else splitTokensAux cs (c :: acc)

/-- The whitespace-separated SPICE fields of a line of text. -/
def tokens (s : String) : List String := splitTokensAux s.data []

/-- Modelled from the spec: the fixed wrapper-name suffix
`TRANSISTOR_WRAPPER_POSTFIX` lives in `spice_constants.h`, which is not under
`src/`; the spec writes it `<WRAPPER_SUFFIX>`.  Its concrete value is
immaterial to every claim. -/
def TRANSISTOR_WRAPPER_SUFFIX : String := "_wrapper"

/-- Modelled from the spec: `generate_spice_port` (from `spice_writer_utils`,
not under `src/`) renders the one-pin `BasicPort(port_stem, pin, pin)` as a
pin-indexed net, per the spec's pin-indexed gate-net contract
(`X..._pin_<pinIndex> <node> <gateNet> ...`). -/
def generate_spice_port (pfx : String) (pin : ℕ) : String :=
  pfx ++ "[" ++ toString pin ++ "]"

/-- Modelled from the spec: `print_spice_subckt_definition` (from
`spice_writer_utils`, not under `src/`) emits the `.subckt <moduleName>
<ports…>` header line. -/
def spice_subckt_def_line (module_name : String) : SpiceLine :=
  [Chunk.str (".subckt " ++ module_name)]

/-- Modelled from the spec: `print_spice_subckt_end` (from
`spice_writer_utils`, not under `src/`) emits the `.ends` footer line. -/
def spice_subckt_end_line (_module_name : String) : SpiceLine :=
  [Chunk.str ".ends"]

/-- Modelled from the spec: `print_spice_file_header` (from
`spice_writer_utils`, not under `src/`) emits the banner comment block. -/
def spice_file_header (purpose : String) : SpiceLine :=
  [Chunk.str ("* " ++ purpose ++ " *")]

/-!
## Transistor wrapper emitter (`print_spice_transistor_model_wrapper`,
`print_spice_transistor_wrapper`)
-/

/-- The three lines of one transistor wrapper subcircuit for one polarity. -/
def transistor_wrapper_lines (tech : TechModel) (t : TransType) : List SpiceLine :=
  [ [Chunk.str (".subckt " ++ tech.trans_name t ++ TRANSISTOR_WRAPPER_SUFFIX
        ++ " drain gate source bulk" ++ " L="),
     Chunk.num (tech.chan_length t),
     Chunk.str " W=",
     Chunk.num (tech.min_width t)],
    [Chunk.str (tech.model_ref ++ "1" ++ " drain gate source bulk"
        ++ " " ++ tech.trans_name t ++ " L=L W=W")],
    [Chunk.str ".ends"] ]

/-- `print_spice_transistor_model_wrapper`: stream validity check, then the
PMOS wrapper followed by the NMOS wrapper. -/
def print_spice_transistor_model_wrapper (fpValid : Bool) (tech : TechModel) :
    CmdStatus × List SpiceLine :=
  if fpValid = false then (CmdStatus.fatal, [])
  else
    (CmdStatus.success,
      transistor_wrapper_lines tech TransType.pmos
        ++ transistor_wrapper_lines tech TransType.nmos)

/-!
## Power-gated stage emitters
(`print_spice_powergated_inverter_pmos_modeling` /
`print_spice_powergated_inverter_nmos_modeling`)
-/

/-- The PMOS power-gate chain loop.  The `last` argument carries
`last_enb_pin`; `none` models `first_enb_pin == true`. -/
def pmos_powergate_chain (trans_name_suffix out_name enb_pfx tname : String)
    (w : ℚ) : List ℕ → Option ℕ → List SpiceLine
  | [], _ => []
  | pin :: rest, none =>
    [Chunk.str ("Xpmos_powergate_" ++ trans_name_suffix ++ "_pin_" ++ toString pin ++ " "
        ++ out_name ++ "_pmos_pg_" ++ toString pin ++ " "
        ++ generate_spice_port enb_pfx pin ++ " "
        ++ "LVDD " ++ "LVDD "
        ++ tname ++ TRANSISTOR_WRAPPER_SUFFIX ++ " W="),
     Chunk.num w]
    :: pmos_powergate_chain trans_name_suffix out_name enb_pfx tname w rest (some pin)
  | pin :: rest, some last =>
    [Chunk.str ("Xpmos_powergate_" ++ trans_name_suffix ++ "_pin_" ++ toString pin ++ " "
        ++ out_name ++ "_pmos_pg_" ++ toString last ++ " "
        ++ generate_spice_port enb_pfx pin ++ " "
        ++ out_name ++ "_pmos_pg_" ++ toString pin ++ " "
        ++ "LVDD "
        ++ tname ++ TRANSISTOR_WRAPPER_SUFFIX ++ " W="),
     Chunk.num w]
    :: pmos_powergate_chain trans_name_suffix out_name enb_pfx tname w rest (some pin)

/-- The core PMOS switching device emitted after the chain
(`Xpmos_<suffix> <out> <in> <out>_pmos_pg_<lastPin> LVDD ...`). -/
def pmos_powergate_core (trans_name_suffix in_name out_name tname : String)
    (w : ℚ) (last_pin : ℕ) : SpiceLine :=
  [Chunk.str ("Xpmos_" ++ trans_name_suffix ++ " "
      ++ out_name ++ " "
      ++ in_name ++ " "
      ++ out_name ++ "_pmos_pg_" ++ toString last_pin ++ " "
      ++ "LVDD "
      ++ tname ++ TRANSISTOR_WRAPPER_SUFFIX ++ " W="),
   Chunk.num w]

def print_spice_powergated_inverter_pmos_modeling (fpValid : Bool)
    (trans_name_suffix in_name out_name : String) (enb_port : CircuitPort)
    (tech : TechModel) (trans_width : ℚ) : CmdStatus × List SpiceLine :=
  if fpValid = false then (CmdStatus.fatal, [])
  else
    (CmdStatus.success,
      pmos_powergate_chain trans_name_suffix out_name enb_port.pfx
          (tech.trans_name TransType.pmos) trans_width (pins enb_port) none
        ++ [pmos_powergate_core trans_name_suffix in_name out_name
              (tech.trans_name TransType.pmos) trans_width
              ((pins enb_port).getLastD 0)])

/-- The NMOS power-gate chain loop.  Note the source's asymmetry: for a
non-first pin the gate net is the bare `circuit_lib.port_prefix(en_port)`
(no pin index), unlike the PMOS side and unlike the first pin. -/
def nmos_powergate_chain (trans_name_suffix out_name en_pfx tname : String)
    (w : ℚ) : List ℕ → Option ℕ → List SpiceLine
  | [], _ => []
  | pin :: rest, none =>
    [Chunk.str ("Xnmos_powergate_" ++ trans_name_suffix ++ "_pin_" ++ toString pin ++ " "
        ++ out_name ++ "_nmos_pg_" ++ toString pin ++ " "
        ++ generate_spice_port en_pfx pin ++ " "
        ++ "LGND " ++ "LGND "
        ++ tname ++ TRANSISTOR_WRAPPER_SUFFIX ++ " W="),
     Chunk.num w]
    :: nmos_powergate_chain trans_name_suffix out_name en_pfx tname w rest (some pin)
  | pin :: rest, some last =>
    [Chunk.str ("Xnmos_powergate_" ++ trans_name_suffix ++ "_pin_" ++ toString pin ++ " "
        ++ out_name ++ "_nmos_pg_" ++ toString last ++ " "
        ++ en_pfx ++ " "
        ++ out_name ++ "_nmos_pg_" ++ toString pin ++ " "
        ++ "LGND "
        ++ tname ++ TRANSISTOR_WRAPPER_SUFFIX ++ " W="),
     Chunk.num w]
    :: nmos_powergate_chain trans_name_suffix out_name en_pfx tname w rest (some pin)

/-- The core NMOS switching device emitted after the chain.  The source writes
`fp << output_port_name << " _nmos_pg_" << circuit_lib.pins(en_port).back()`,
i.e. with a space before `_nmos_pg_`. -/
def nmos_powergate_core (trans_name_suffix in_name out_name tname : String)
    (w : ℚ) (last_pin : ℕ) : SpiceLine :=
  [Chunk.str ("Xnmos_" ++ trans_name_suffix ++ " "
      ++ out_name ++ " "
      ++ in_name ++ " "
      ++ out_name ++ " _nmos_pg_" ++ toString last_pin ++ " "
      ++ "LGND "
      ++ tname ++ TRANSISTOR_WRAPPER_SUFFIX ++ " W="),
   Chunk.num w]

def print_spice_powergated_inverter_nmos_modeling (fpValid : Bool)
    (trans_name_suffix in_name out_name : String) (en_port : CircuitPort)
    (tech : TechModel) (trans_width : ℚ) : CmdStatus × List SpiceLine :=
  if fpValid = false then (CmdStatus.fatal, [])
  else
    (CmdStatus.success,
      nmos_powergate_chain trans_name_suffix out_name en_port.pfx
          (tech.trans_name TransType.nmos) trans_width (pins en_port) none
        ++ [nmos_powergate_core trans_name_suffix in_name out_name
              (tech.trans_name TransType.nmos) trans_width
              ((pins en_port).getLastD 0)])

/-!
## Regular stage emitters (`print_spice_regular_inverter_pmos_modeling` /
`print_spice_regular_inverter_nmos_modeling`)
-/

def print_spice_regular_inverter_pmos_modeling (fpValid : Bool)
    (trans_name_suffix in_name out_name : String) (tech : TechModel)
    (trans_width : ℚ) : CmdStatus × List SpiceLine :=
  if fpValid = false then (CmdStatus.fatal, [])
  else
    (CmdStatus.success,
      [[Chunk.str ("Xpmos_" ++ trans_name_suffix ++ " "
          ++ out_name ++ " "
          ++ in_name ++ " "
          ++ "LVDD " ++ "LVDD "
          ++ tech.trans_name TransType.pmos ++ TRANSISTOR_WRAPPER_SUFFIX ++ " W="),
        Chunk.num trans_width]])

def print_spice_regular_inverter_nmos_modeling (fpValid : Bool)
    (trans_name_suffix in_name out_name : String) (tech : TechModel)
    (trans_width : ℚ) : CmdStatus × List SpiceLine :=
  if fpValid = false then (CmdStatus.fatal, [])
  else
    (CmdStatus.success,
      [[Chunk.str ("Xnmos_" ++ trans_name_suffix ++ " "
          ++ out_name ++ " "
          ++ in_name ++ " "
          ++ "LGND " ++ "LGND "
          ++ tech.trans_name TransType.nmos ++ TRANSISTOR_WRAPPER_SUFFIX ++ " W="),
        Chunk.num trans_width]])

/-!
## Subcircuit emitters
-/

/-- Three-valued outcome of a subckt emitter: the integer status codes plus
the abort caused by a failed `VTR_ASSERT`. -/
inductive Outcome where
  | success
  | fatal
  | assertViolation
deriving DecidableEq

/-- Result of a subckt emitter: outcome plus the lines written before it
returned (or before the failed assertion). -/
structure Emit where
  out : Outcome
  lines : List SpiceLine
deriving DecidableEq

/-- `VTR_ASSERT((1 == ports.size()) && (1 == circuit_lib.port_size(ports[0])))`. -/
def one_scalar_port : List CircuitPort → Bool
  | [p] => p.size == 1
  | _ => false

/-- A `for`-loop body sequence with the source's early `return` on a fatal
status: used for the bin loops and the buffer level loop. -/
def run_seq {α : Type} (body : α → CmdStatus × List SpiceLine) :
    List α → CmdStatus × List SpiceLine
  | [] => (CmdStatus.success, [])
  | x :: rest =>
    let r := body x
    if r.1 = CmdStatus.fatal then (CmdStatus.fatal, r.2)
    else
      let rr := run_seq body rest
      (rr.1, r.2 ++ rr.2)

/-- The indexed bin widths traversed by
`for (int ibin = 0; ibin < num_bins; ++ibin)`. -/
def indexed_bin_widths (total maxw : ℚ) : List (ℕ × ℚ) :=
  (List.range (num_bins total maxw).toNat).map
    (fun i => (i, bin_width_at total maxw i))

/-- `total_pmos_width`: `buffer_size * pn_ratio * pmos min_width`. -/
def total_pmos_width (size : ℚ) (tech : TechModel) : ℚ :=
  size * tech.pnRatioVal * tech.min_width TransType.pmos

/-- `total_nmos_width`: `buffer_size * nmos min_width`. -/
def total_nmos_width (size : ℚ) (tech : TechModel) : ℚ :=
  size * tech.min_width TransType.nmos

/-- `print_spice_regular_inverter_subckt`. -/
def print_spice_regular_inverter_subckt (fpValid : Bool) (m : CircuitModel)
    (tech : TechModel) : Emit :=
  if fpValid = false then ⟨Outcome.fatal, []⟩
  else
    let hdr := spice_subckt_def_line m.model_name
    if one_scalar_port m.input_ports = false then ⟨Outcome.assertViolation, [hdr]⟩
    else if one_scalar_port m.output_ports = false then ⟨Outcome.assertViolation, [hdr]⟩
    else
      let in_name := (m.input_ports.headD ⟨"", 0⟩).pfx
      let out_name := (m.output_ports.headD ⟨"", 0⟩).pfx
      let rp := run_seq
        (fun iw => print_spice_regular_inverter_pmos_modeling fpValid
          (toString iw.1) in_name out_name tech iw.2)
        (indexed_bin_widths (total_pmos_width m.buffer_size tech)
          (tech.max_width TransType.pmos))
      if rp.1 = CmdStatus.fatal then ⟨Outcome.fatal, hdr :: rp.2⟩
      else
        let rn := run_seq
          (fun iw => print_spice_regular_inverter_nmos_modeling fpValid
            (toString iw.1) in_name out_name tech iw.2)
          (indexed_bin_widths (total_nmos_width m.buffer_size tech)
            (tech.max_width TransType.nmos))
        if rn.1 = CmdStatus.fatal then ⟨Outcome.fatal, hdr :: (rp.2 ++ rn.2)⟩
        else ⟨Outcome.success,
          hdr :: (rp.2 ++ rn.2) ++ [spice_subckt_end_line m.model_name]⟩

/-- `print_spice_powergated_inverter_subckt`. -/
def print_spice_powergated_inverter_subckt (fpValid : Bool) (m : CircuitModel)
    (tech : TechModel) : Emit :=
  if fpValid = false then ⟨Outcome.fatal, []⟩
  else
    let hdr := spice_subckt_def_line m.model_name
    if one_scalar_port m.input_ports = false then ⟨Outcome.assertViolation, [hdr]⟩
    else if one_scalar_port m.output_ports = false then ⟨Outcome.assertViolation, [hdr]⟩
    else if m.is_power_gated = false then ⟨Outcome.assertViolation, [hdr]⟩
    else
      match m.en_port, m.enb_port with
      | some en_port, some enb_port =>
        let in_name := (m.input_ports.headD ⟨"", 0⟩).pfx
        let out_name := (m.output_ports.headD ⟨"", 0⟩).pfx
        let rp := run_seq
          (fun iw => print_spice_powergated_inverter_pmos_modeling fpValid
            (toString iw.1) in_name out_name enb_port tech iw.2)
          (indexed_bin_widths (total_pmos_width m.buffer_size tech)
            (tech.max_width TransType.pmos))
        if rp.1 = CmdStatus.fatal then ⟨Outcome.fatal, hdr :: rp.2⟩
        else
          let rn := run_seq
            (fun iw => print_spice_powergated_inverter_nmos_modeling fpValid
              (toString iw.1) in_name out_name en_port tech iw.2)
            (indexed_bin_widths (total_nmos_width m.buffer_size tech)
              (tech.max_width TransType.nmos))
          if rn.1 = CmdStatus.fatal then ⟨Outcome.fatal, hdr :: (rp.2 ++ rn.2)⟩
          else ⟨Outcome.success,
            hdr :: (rp.2 ++ rn.2) ++ [spice_subckt_end_line m.model_name]⟩
      | _, _ => ⟨Outcome.assertViolation, [hdr]⟩

/-- `print_spice_inverter_subckt`: dispatch on `is_power_gated`. -/
def print_spice_inverter_subckt (fpValid : Bool) (m : CircuitModel)
    (tech : TechModel) : Emit :=
  if m.is_power_gated = true then
    print_spice_powergated_inverter_subckt fpValid m tech
  else
    print_spice_regular_inverter_subckt fpValid m tech

/-!
## Multi-stage buffer emitters
-/

/-- The per-level width array
`buffer_widths[level] = buffer_size * pow(buffer_f_per_stage, level)`. -/
def buffer_widths (size f : ℚ) (num_levels : ℕ) : List ℚ :=
  (List.range num_levels).map (fun level => size * f ^ level)

/-- One iteration of the level loop of `print_spice_regular_buffer_subckt`.
`input_port_name` / `output_port_name` are computed exactly as in the source
— and, exactly as in the source, never passed on: the stage emitters receive
the bare port stems. -/
def regular_buffer_level (fpValid : Bool) (m : CircuitModel) (tech : TechModel)
    (in_pfx out_pfx : String) (level : ℕ) : CmdStatus × List SpiceLine :=
  let input_port_name :=
    if 0 = level then in_pfx else in_pfx ++ "_level" ++ toString (level - 1)
  let output_port_name :=
    if 0 = level then out_pfx ++ "_level" ++ toString level else out_pfx
  let w := (buffer_widths m.buffer_size m.buffer_f_per_stage
      m.buffer_num_levels).getD level 1
  let rp := run_seq
    (fun iw => print_spice_regular_inverter_pmos_modeling fpValid
      ("level" ++ toString level ++ "_bin" ++ toString iw.1)
      in_pfx out_pfx tech iw.2)
    (indexed_bin_widths (total_pmos_width w tech) (tech.max_width TransType.pmos))
  if rp.1 = CmdStatus.fatal then (CmdStatus.fatal, rp.2)
  else
    let rn := run_seq
      (fun iw => print_spice_regular_inverter_nmos_modeling fpValid
        ("level" ++ toString level ++ "_bin" ++ toString iw.1)
        in_pfx out_pfx tech iw.2)
      (indexed_bin_widths (total_nmos_width w tech) (tech.max_width TransType.nmos))
    (rn.1, rp.2 ++ rn.2)

/-- `print_spice_regular_buffer_subckt`. -/
def print_spice_regular_buffer_subckt (fpValid : Bool) (m : CircuitModel)
    (tech : TechModel) : Emit :=
  if fpValid = false then ⟨Outcome.fatal, []⟩
  else
    let hdr := spice_subckt_def_line m.model_name
    if one_scalar_port m.input_ports = false then ⟨Outcome.assertViolation, [hdr]⟩
    else if one_scalar_port m.output_ports = false then ⟨Outcome.assertViolation, [hdr]⟩
    else if m.buffer_num_levels < 2 then ⟨Outcome.assertViolation, [hdr]⟩
    else
      let in_pfx := (m.input_ports.headD ⟨"", 0⟩).pfx
      let out_pfx := (m.output_ports.headD ⟨"", 0⟩).pfx
      let r := run_seq (regular_buffer_level fpValid m tech in_pfx out_pfx)
        (List.range m.buffer_num_levels)
      if r.1 = CmdStatus.fatal then ⟨Outcome.fatal, hdr :: r.2⟩
      else ⟨Outcome.success, hdr :: r.2 ++ [spice_subckt_end_line m.model_name]⟩

/-- One iteration of the level loop of `print_spice_powergated_buffer_subckt`;
the same dead stitched-net computation as the regular variant. -/
def powergated_buffer_level (fpValid : Bool) (m : CircuitModel) (tech : TechModel)
    (in_pfx out_pfx : String) (en_port enb_port : CircuitPort) (level : ℕ) :
    CmdStatus × List SpiceLine :=
  let input_port_name :=
    if 0 = level then in_pfx else in_pfx ++ "_level" ++ toString (level - 1)
  let output_port_name :=
    if 0 = level then out_pfx ++ "_level" ++ toString level else out_pfx
  let w := (buffer_widths m.buffer_size m.buffer_f_per_stage
      m.buffer_num_levels).getD level 1
  let rp := run_seq
    (fun iw => print_spice_powergated_inverter_pmos_modeling fpValid
      ("level" ++ toString level ++ "_bin" ++ toString iw.1)
      in_pfx out_pfx enb_port tech iw.2)
    (indexed_bin_widths (total_pmos_width w tech) (tech.max_width TransType.pmos))
  if rp.1 = CmdStatus.fatal then (CmdStatus.fatal, rp.2)
  else
    let rn := run_seq
      (fun iw => print_spice_powergated_inverter_nmos_modeling fpValid
        ("level" ++ toString level ++ "_bin" ++ toString iw.1)
        in_pfx out_pfx en_port tech iw.2)
      (indexed_bin_widths (total_nmos_width w tech) (tech.max_width TransType.nmos))
    (rn.1, rp.2 ++ rn.2)

/-- `print_spice_powergated_buffer_subckt`. -/
def print_spice_powergated_buffer_subckt (fpValid : Bool) (m : CircuitModel)
    (tech : TechModel) : Emit :=
  if fpValid = false then ⟨Outcome.fatal, []⟩
  else
    let hdr := spice_subckt_def_line m.model_name
    if one_scalar_port m.input_ports = false then ⟨Outcome.assertViolation, [hdr]⟩
    else if one_scalar_port m.output_ports = false then ⟨Outcome.assertViolation, [hdr]⟩
    else if m.is_power_gated = false then ⟨Outcome.assertViolation, [hdr]⟩
    else
      match m.en_port, m.enb_port with
      | some en_port, some enb_port =>
        if m.buffer_num_levels < 2 then ⟨Outcome.assertViolation, [hdr]⟩
        else
          let in_pfx := (m.input_ports.headD ⟨"", 0⟩).pfx
          let out_pfx := (m.output_ports.headD ⟨"", 0⟩).pfx
          let r := run_seq
            (powergated_buffer_level fpValid m tech in_pfx out_pfx en_port enb_port)
            (List.range m.buffer_num_levels)
          if r.1 = CmdStatus.fatal then ⟨Outcome.fatal, hdr :: r.2⟩
          else ⟨Outcome.success, hdr :: r.2 ++ [spice_subckt_end_line m.model_name]⟩
      | _, _ => ⟨Outcome.assertViolation, [hdr]⟩

/-- `print_spice_buffer_subckt`: dispatch on `is_power_gated`. -/
def print_spice_buffer_subckt (fpValid : Bool) (m : CircuitModel)
    (tech : TechModel) : Emit :=
  if m.is_power_gated = true then
    print_spice_powergated_buffer_subckt fpValid m tech
  else
    print_spice_regular_buffer_subckt fpValid m tech

/-!
## Synthesis drivers (`print_spice_transistor_wrapper`,
`print_spice_essential_gates`)
-/

/-- Result of a whole synthesis pass: final outcome, all lines written to the
stream, whether `fp.close()` ran, and whether the file was registered with the
netlist manager as a `SUBMODULE_NETLIST`. -/
structure DriverResult where
  status : Outcome
  lines : List SpiceLine
  file_closed : Bool
  registered_submodule : Bool
deriving DecidableEq

/-- The model loop of `print_spice_transistor_wrapper`, including its
inverted status check: `if (CMD_EXEC_SUCCESS == print_...) return
CMD_EXEC_FATAL_ERROR;`. -/
def transistor_wrapper_loop (fpValid : Bool) :
    List TechModel → List SpiceLine → DriverResult
  | [], acc => ⟨Outcome.success, acc, true, true⟩
  | tm :: rest, acc =>
    if tm.is_transistor = false then transistor_wrapper_loop fpValid rest acc
    else
      let r := print_spice_transistor_model_wrapper fpValid tm
      if r.1 = CmdStatus.success then ⟨Outcome.fatal, acc ++ r.2, false, false⟩
      else transistor_wrapper_loop fpValid rest (acc ++ r.2)

/-- `print_spice_transistor_wrapper`, with the technology library reduced to
its ordered model list. -/
def print_spice_transistor_wrapper (fpValid : Bool) (models : List TechModel) :
    DriverResult :=
  transistor_wrapper_loop fpValid models [spice_file_header "Transistor wrappers"]

/-- Model types that must have a technology binding: INVBUF, PASSGATE, GATE. -/
def requires_tech_binding (t : CircuitModelType) : Bool :=
  t = CircuitModelType.invbuf ∨ t = CircuitModelType.passgate
    ∨ t = CircuitModelType.gate

/-- The circuit-model loop of `print_spice_essential_gates`: bypass models
with an external netlist; missing technology binding returns fatally at once
(stream neither closed nor registered); an INVBUF emission's fatal status
breaks out of the loop, after which the stream is closed and the file
registered. -/
def essential_gates_loop (fpValid : Bool) (binding : List (String × TechModel)) :
    List CircuitModel → List SpiceLine → DriverResult
  | [], acc => ⟨Outcome.success, acc, true, true⟩
  | m :: rest, acc =>
    if m.model_circuit_netlist ≠ "" then essential_gates_loop fpValid binding rest acc
    else if requires_tech_binding m.model_type then
      match binding.lookup m.model_name with
      | none => ⟨Outcome.fatal, acc, false, false⟩
      | some tech =>
        if m.model_type = CircuitModelType.invbuf then
          let e := if m.buffer_type = BufType.bufInv then
              print_spice_inverter_subckt fpValid m tech
            else
              print_spice_buffer_subckt fpValid m tech
          match e.out with
          | Outcome.assertViolation => ⟨Outcome.assertViolation, acc ++ e.lines, false, false⟩
          | Outcome.fatal => ⟨Outcome.fatal, acc ++ e.lines, true, true⟩
          | Outcome.success => essential_gates_loop fpValid binding rest (acc ++ e.lines)
        else essential_gates_loop fpValid binding rest acc
    else essential_gates_loop fpValid binding rest acc

/-- `print_spice_essential_gates`, with the circuit library reduced to its
ordered model list and the binding map to an association list. -/
def print_spice_essential_gates (fpValid : Bool)
    (binding : List (String × TechModel)) (models : List CircuitModel) :
    DriverResult :=
  essential_gates_loop fpValid binding models [spice_file_header "Essential gates"]

/-!
## Concrete fixtures
-/

/-- A minimal technology model: both polarities have channel length, min
width and max width `1`, pn ratio `1`. -/
def techT : TechModel :=
  ⟨"M", true,
   fun t => match t with
     | TransType.pmos => "TPMOS"
     | TransType.nmos => "TNMOS",
   fun _ => 1, fun _ => 1, fun _ => 1, 1⟩

/-- A regular (non-power-gated) two-level buffer model with scalar ports
`in` / `out`, `buffer_size = 1`, `buffer_f_per_stage = 1`. -/
def bufM : CircuitModel :=
  ⟨"buf2", CircuitModelType.invbuf, BufType.bufBuf, false, 1, 2, 1,
   [⟨"in", 1⟩], [⟨"out", 1⟩], none, none, ""⟩

/-- A regular inverter model with two input ports: violates the
one-scalar-input precondition. -/
def badInvM : CircuitModel :=
  ⟨"inv_bad", CircuitModelType.invbuf, BufType.bufInv, false, 1, 1, 1,
   [⟨"a", 1⟩, ⟨"b", 1⟩], [⟨"out", 1⟩], none, none, ""⟩

/-- A power-gated inverter model with one-pin enable/enable-bar ports. -/
def pgInvM : CircuitModel :=
  ⟨"pg_inv", CircuitModelType.invbuf, BufType.bufInv, true, 1, 1, 1,
   [⟨"in", 1⟩], [⟨"out", 1⟩], some ⟨"en", 1⟩, some ⟨"enb", 1⟩, ""⟩

/-- A GATE-type model with no technology binding provided in the fixtures. -/
def gateM : CircuitModel :=
  ⟨"gate0", CircuitModelType.gate, BufType.bufInv, false, 1, 1, 1,
   [⟨"a", 1⟩], [⟨"out", 1⟩], none, none, ""⟩

/-!
## C3: transistor wrapper status inversion
-/

/-- C3: the claim says `print_spice_transistor_wrapper` returns success for a
writable stream and at least one transistor model, and fatal only for an
unwritable stream.  The source inverts the status check
(`if (CMD_EXEC_SUCCESS == print_spice_transistor_model_wrapper(..)) return
CMD_EXEC_FATAL_ERROR;`), so a writable stream with one transistor model
returns the fatal status, while an unwritable stream returns success. -/
theorem transistor_wrapper_inverted_status :
    (print_spice_transistor_wrapper true [techT]).status = Outcome.fatal
    ∧ (print_spice_transistor_wrapper false [techT]).status = Outcome.success := by
  constructor <;> rfl

/-!
## C4: the NMOS core device's source net has a stray space
-/

/-- C4: the claim says the core NMOS device's source terminal is the single
net token `<output>_nmos_pg_<lastPin>`, symmetric to the PMOS side.  The
source writes `output_port_name << " _nmos_pg_" << lastPin`, so the line
splits into 8 SPICE fields with field 3 equal to `out` and a stray
`_nmos_pg_0` field, while the PMOS core line has the intended 7 fields with
field 3 the single token `out_pmos_pg_0`. -/
theorem nmos_core_source_token_split :
    (print_spice_powergated_inverter_nmos_modeling true "0" "in" "out"
        ⟨"en", 1⟩ techT 1).2.getLastD []
      = nmos_powergate_core "0" "in" "out" "TNMOS" 1 0
    ∧ tokens (lineTextStr (nmos_powergate_core "0" "in" "out" "TNMOS" 1 0))
      = ["Xnmos_0", "out", "in", "out", "_nmos_pg_0", "LGND",
         "TNMOS" ++ TRANSISTOR_WRAPPER_SUFFIX, "W="]
    ∧ (print_spice_powergated_inverter_pmos_modeling true "0" "in" "out"
        ⟨"enb", 1⟩ techT 1).2.getLastD []
      = pmos_powergate_core "0" "in" "out" "TPMOS" 1 0
    ∧ tokens (lineTextStr (pmos_powergate_core "0" "in" "out" "TPMOS" 1 0))
      = ["Xpmos_0", "out", "in", "out_pmos_pg_0", "LVDD",
         "TPMOS" ++ TRANSISTOR_WRAPPER_SUFFIX, "W="] := by
  refine ⟨?_, ?_, ?_, ?_⟩ <;> decide

/-!
## C5: bare gate net on non-first NMOS chain pins
-/

/-- C5: the claim says every chain switch device's gate net is the pin-indexed
net of its pin, on the NMOS side as on the PMOS side.  For pin 1 of a two-pin
enable port, the emitted NMOS chain line's gate field is the bare port stem
`en` — not the pin-indexed `en[1]` — while the PMOS side's is the pin-indexed
`enb[1]`. -/
theorem nmos_chain_gate_net_bare :
    tokens (lineTextStr ((print_spice_powergated_inverter_nmos_modeling true "0"
        "in" "out" ⟨"en", 2⟩ techT 1).2.getD 1 []))
      = ["Xnmos_powergate_0_pin_1", "out_nmos_pg_0", "en", "out_nmos_pg_1",
         "LGND", "TNMOS" ++ TRANSISTOR_WRAPPER_SUFFIX, "W="]
    ∧ tokens (lineTextStr ((print_spice_powergated_inverter_pmos_modeling true "0"
        "in" "out" ⟨"enb", 2⟩ techT 1).2.getD 1 []))
      = ["Xpmos_powergate_0_pin_1", "out_pmos_pg_0",
         generate_spice_port "enb" 1, "out_pmos_pg_1",
         "LVDD", "TPMOS" ++ TRANSISTOR_WRAPPER_SUFFIX, "W="]
    ∧ "en" ≠ generate_spice_port "en" 1 := by
  refine ⟨?_, ?_, ?_⟩ <;> decide

/-!
## C7: power-gate chain length
-/

lemma pmos_powergate_chain_length (sfx out_name enb_pfx tname : String)
    (w : ℚ) (ps : List ℕ) :
    ∀ last : Option ℕ,
      (pmos_powergate_chain sfx out_name enb_pfx tname w ps last).length
        = ps.length := by
  induction ps with
  | nil => intro last; rfl
  | cons p rest ih =>
    intro last
    cases last <;> simp [pmos_powergate_chain, ih]

lemma nmos_powergate_chain_length (sfx out_name en_pfx tname : String)
    (w : ℚ) (ps : List ℕ) :
    ∀ last : Option ℕ,
      (nmos_powergate_chain sfx out_name en_pfx tname w ps last).length
        = ps.length := by
  induction ps with
  | nil => intro last; rfl
  | cons p rest ih =>
    intro last
    cases last <;> simp [nmos_powergate_chain, ih]

/-- C7: for a power-gated stage and either polarity side, an enable
(or enable-bar) port with `k ≥ 1` pins yields exactly `k` chained switch
device lines followed by exactly one core switching device line. -/
theorem powergate_chain_length_correct (sfx in_name out_name : String)
    (port : CircuitPort) (tech : TechModel) (w : ℚ) (hk : 1 ≤ port.size) :
    (print_spice_powergated_inverter_pmos_modeling true sfx in_name out_name
        port tech w).2
      = pmos_powergate_chain sfx out_name port.pfx
          (tech.trans_name TransType.pmos) w (pins port) none
        ++ [pmos_powergate_core sfx in_name out_name
              (tech.trans_name TransType.pmos) w ((pins port).getLastD 0)]
    ∧ (pmos_powergate_chain sfx out_name port.pfx
          (tech.trans_name TransType.pmos) w (pins port) none).length = port.size
    ∧ (print_spice_powergated_inverter_nmos_modeling true sfx in_name out_name
        port tech w).2
      = nmos_powergate_chain sfx out_name port.pfx
          (tech.trans_name TransType.nmos) w (pins port) none
        ++ [nmos_powergate_core sfx in_name out_name
              (tech.trans_name TransType.nmos) w ((pins port).getLastD 0)]
    ∧ (nmos_powergate_chain sfx out_name port.pfx
          (tech.trans_name TransType.nmos) w (pins port) none).length = port.size := by
  refine ⟨rfl, ?_, rfl, ?_⟩
  · rw [pmos_powergate_chain_length]
    unfold pins
    exact List.length_range port.size
  · rw [nmos_powergate_chain_length]
    unfold pins
    exact List.length_range port.size

/-- Witness for C7 at a two-pin enable port. -/
theorem powergate_chain_length_correct_witness :
    1 ≤ (⟨"en", 2⟩ : CircuitPort).size
    ∧ ((print_spice_powergated_inverter_pmos_modeling true "0" "in" "out"
          ⟨"en", 2⟩ techT 1).2
        = pmos_powergate_chain "0" "out" (⟨"en", 2⟩ : CircuitPort).pfx
            (techT.trans_name TransType.pmos) 1 (pins ⟨"en", 2⟩) none
          ++ [pmos_powergate_core "0" "in" "out"
                (techT.trans_name TransType.pmos) 1 ((pins ⟨"en", 2⟩).getLastD 0)]
      ∧ (pmos_powergate_chain "0" "out" (⟨"en", 2⟩ : CircuitPort).pfx
            (techT.trans_name TransType.pmos) 1 (pins ⟨"en", 2⟩) none).length
          = (⟨"en", 2⟩ : CircuitPort).size
      ∧ (print_spice_powergated_inverter_nmos_modeling true "0" "in" "out"
          ⟨"en", 2⟩ techT 1).2
        = nmos_powergate_chain "0" "out" (⟨"en", 2⟩ : CircuitPort).pfx
            (techT.trans_name TransType.nmos) 1 (pins ⟨"en", 2⟩) none
          ++ [nmos_powergate_core "0" "in" "out"
                (techT.trans_name TransType.nmos) 1 ((pins ⟨"en", 2⟩).getLastD 0)]
      ∧ (nmos_powergate_chain "0" "out" (⟨"en", 2⟩ : CircuitPort).pfx
            (techT.trans_name TransType.nmos) 1 (pins ⟨"en", 2⟩) none).length
          = (⟨"en", 2⟩ : CircuitPort).size) :=
  ⟨by decide,
   powergate_chain_length_correct "0" "in" "out" ⟨"en", 2⟩ techT 1 (by decide)⟩

/-!
## C9: precondition rejection
-/

/-- C9: an inverter model that does not expose exactly one scalar input port
and exactly one scalar output port is rejected by the `VTR_ASSERT` invariant
checks of the subckt emitters before any device instance line is emitted:
both the regular and the power-gated inverter emitter stop with an assertion
violation having written only the `.subckt` header line. -/
theorem invalid_ports_assert_reject (m : CircuitModel) (tech : TechModel)
    (h : ¬(one_scalar_port m.input_ports = true
           ∧ one_scalar_port m.output_ports = true)) :
    (print_spice_regular_inverter_subckt true m tech).out
        = Outcome.assertViolation
    ∧ (print_spice_regular_inverter_subckt true m tech).lines
        = [spice_subckt_def_line m.model_name]
    ∧ (print_spice_powergated_inverter_subckt true m tech).out
        = Outcome.assertViolation
    ∧ (print_spice_powergated_inverter_subckt true m tech).lines
        = [spice_subckt_def_line m.model_name] := by
  by_cases hin : one_scalar_port m.input_ports = true
  · have hout : one_scalar_port m.output_ports = false := by
      cases hcheck : one_scalar_port m.output_ports
      · rfl
      · exact absurd ⟨hin, hcheck⟩ h
    refine ⟨?_, ?_, ?_, ?_⟩ <;>
      simp [print_spice_regular_inverter_subckt,
        print_spice_powergated_inverter_subckt, hin, hout]
  · have hin' : one_scalar_port m.input_ports = false := by
      cases hcheck : one_scalar_port m.input_ports
      · rfl
      · exact absurd hcheck hin
    refine ⟨?_, ?_, ?_, ?_⟩ <;>
      simp [print_spice_regular_inverter_subckt,
        print_spice_powergated_inverter_subckt, hin']

/-- Witness for C9 at a model exposing two input ports. -/
theorem invalid_ports_assert_reject_witness :
    (¬(one_scalar_port badInvM.input_ports = true
       ∧ one_scalar_port badInvM.output_ports = true))
    ∧ ((print_spice_regular_inverter_subckt true badInvM techT).out
          = Outcome.assertViolation
      ∧ (print_spice_regular_inverter_subckt true badInvM techT).lines
          = [spice_subckt_def_line badInvM.model_name]
      ∧ (print_spice_powergated_inverter_subckt true badInvM techT).out
          = Outcome.assertViolation
      ∧ (print_spice_powergated_inverter_subckt true badInvM techT).lines
          = [spice_subckt_def_line badInvM.model_name]) :=
  ⟨by decide, invalid_ports_assert_reject badInvM techT (by decide)⟩

/-!
## C6: missing technology binding aborts the pass immediately
-/

/-- C6: when the loop of `print_spice_essential_gates` reaches a model that
does not bypass via an external netlist, whose type requires a technology
binding (INVBUF, PASSGATE or GATE), and that has no entry in the binding map,
the pass returns the fatal status at once: no line is emitted for that model
or for any model later in the iteration order (the result lines are exactly
the lines accumulated before it), and the stream is neither closed nor the
file registered. -/
theorem missing_binding_fatal_stops_pass (fpValid : Bool)
    (binding : List (String × TechModel)) (m : CircuitModel)
    (rest : List CircuitModel) (acc : List SpiceLine)
    (hbypass : m.model_circuit_netlist = "")
    (hreq : requires_tech_binding m.model_type = true)
    (hmiss : binding.lookup m.model_name = none) :
    essential_gates_loop fpValid binding (m :: rest) acc
      = ⟨Outcome.fatal, acc, false, false⟩ := by
  unfold essential_gates_loop
  simp [hbypass, hreq, hmiss]

/-- Witness for C6: a GATE model without binding, followed by a further
model that is consequently never processed. -/
theorem missing_binding_fatal_stops_pass_witness :
    gateM.model_circuit_netlist = ""
    ∧ requires_tech_binding gateM.model_type = true
    ∧ (List.lookup gateM.model_name ([] : List (String × TechModel))) = none
    ∧ essential_gates_loop true [] [gateM, bufM] [spice_file_header "Essential gates"]
        = ⟨Outcome.fatal, [spice_file_header "Essential gates"], false, false⟩ :=
  ⟨rfl, by decide, rfl,
   missing_binding_fatal_stops_pass true [] gateM [bufM]
     [spice_file_header "Essential gates"] rfl (by decide) rfl⟩

/-!
## C10: an INVBUF fatal mid-pass still closes and registers
-/

/-- C10: when the dispatched INVBUF subcircuit emission returns the fatal
status, the loop of `print_spice_essential_gates` breaks: no later model is
processed, yet the stream is closed and the (partial) file is registered as a
submodule netlist before the fatal status is returned — unlike the
missing-binding fatal path, which returns with the stream neither closed nor
the file registered. -/
theorem invbuf_fatal_closes_and_registers (fpValid : Bool)
    (binding : List (String × TechModel)) (m : CircuitModel)
    (rest : List CircuitModel) (acc : List SpiceLine) (tech : TechModel)
    (hbypass : m.model_circuit_netlist = "")
    (htype : m.model_type = CircuitModelType.invbuf)
    (hbind : binding.lookup m.model_name = some tech)
    (hfatal : (if m.buffer_type = BufType.bufInv then
                 print_spice_inverter_subckt fpValid m tech
               else
                 print_spice_buffer_subckt fpValid m tech).out = Outcome.fatal) :
    essential_gates_loop fpValid binding (m :: rest) acc
      = ⟨Outcome.fatal,
         acc ++ (if m.buffer_type = BufType.bufInv then
                   print_spice_inverter_subckt fpValid m tech
                 else
                   print_spice_buffer_subckt fpValid m tech).lines,
         true, true⟩
    ∧ ∀ m' : CircuitModel, m'.model_circuit_netlist = ""
        → requires_tech_binding m'.model_type = true
        → binding.lookup m'.model_name = none
        → essential_gates_loop fpValid binding (m' :: rest) acc
            = ⟨Outcome.fatal, acc, false, false⟩ := by
  constructor
  · have hreq : requires_tech_binding m.model_type = true := by
      unfold requires_tech_binding
      rw [htype]
      decide
    have hreq2 : requires_tech_binding CircuitModelType.invbuf = true := by decide
    unfold essential_gates_loop
    simp [hbypass, hreq, hreq2, hbind, htype, hfatal]
  · intro m' h1 h2 h3
    unfold essential_gates_loop
    simp [h1, h2, h3]

/-- Witness for C10: a power-gated inverter model whose emission is fatal
(unwritable stream), bound in the binding map, followed by a model that is
never processed. -/
theorem invbuf_fatal_closes_and_registers_witness :
    pgInvM.model_circuit_netlist = ""
    ∧ pgInvM.model_type = CircuitModelType.invbuf
    ∧ (List.lookup pgInvM.model_name [("pg_inv", techT)]) = some techT
    ∧ (if pgInvM.buffer_type = BufType.bufInv then
         print_spice_inverter_subckt false pgInvM techT
       else
         print_spice_buffer_subckt false pgInvM techT).out = Outcome.fatal
    ∧ (essential_gates_loop false [("pg_inv", techT)] ([pgInvM] ++ [bufM]) []
        = ⟨Outcome.fatal,
           [] ++ (if pgInvM.buffer_type = BufType.bufInv then
                    print_spice_inverter_subckt false pgInvM techT
                  else
                    print_spice_buffer_subckt false pgInvM techT).lines,
           true, true⟩
      ∧ ∀ m' : CircuitModel, m'.model_circuit_netlist = ""
          → requires_tech_binding m'.model_type = true
          → List.lookup m'.model_name [("pg_inv", techT)] = none
          → essential_gates_loop false [("pg_inv", techT)] (m' :: [bufM]) []
              = ⟨Outcome.fatal, [], false, false⟩) :=
  ⟨rfl, rfl, rfl, rfl,
   invbuf_fatal_closes_and_registers false [("pg_inv", techT)] pgInvM [bufM]
     [] techT rfl rfl rfl rfl⟩

/-!
## C8: stage scaling
-/

lemma buffer_widths_getD (S f : ℚ) (L level : ℕ) (h : level < L) :
    (buffer_widths S f L).getD level 1 = S * f ^ level := by
  unfold buffer_widths
  rw [List.getD_eq_getElem _ _ (by simpa using h)]
  simp

/-- C8: the per-level width list computed before buffer emission satisfies
`width[level] = buffer_size * buffer_f_per_stage ^ level`, and for a scale
factor `f ≥ 1` (and a nonnegative drive strength, as every physical
`buffer_size` is) it is non-decreasing in the level. -/
theorem stage_scaling_monotone (S f : ℚ) (L : ℕ) (hS : 0 ≤ S) (hf : 1 ≤ f) :
    (∀ level : ℕ, level < L →
      (buffer_widths S f L).getD level 1 = S * f ^ level)
    ∧ (∀ i j : ℕ, i ≤ j → j < L →
      (buffer_widths S f L).getD i 1 ≤ (buffer_widths S f L).getD j 1) := by
  constructor
  · intro level h
    exact buffer_widths_getD S f L level h
  · intro i j hij hj
    rw [buffer_widths_getD S f L i (lt_of_le_of_lt hij hj),
      buffer_widths_getD S f L j hj]
    have hpow : f ^ i ≤ f ^ j := pow_le_pow_right₀ hf hij
    exact mul_le_mul_of_nonneg_left hpow hS

/-- Witness for C8 at the spec's example
`buffer_size = 1, buffer_f_per_stage = 4, buffer_num_levels = 3 → [1, 4, 16]`. -/
theorem stage_scaling_monotone_witness :
    (0 : ℚ) ≤ 1 ∧ (1 : ℚ) ≤ 4
    ∧ buffer_widths 1 4 3 = [1, 4, 16]
    ∧ ((∀ level : ℕ, level < 3 →
        (buffer_widths (1 : ℚ) 4 3).getD level 1 = 1 * 4 ^ level)
      ∧ (∀ i j : ℕ, i ≤ j → j < 3 →
        (buffer_widths (1 : ℚ) 4 3).getD i 1 ≤ (buffer_widths (1 : ℚ) 4 3).getD j 1)) :=
  ⟨by norm_num, by norm_num,
   by
    unfold buffer_widths
    have hr : List.range 3 = [0, 1, 2] := by decide
    rw [hr]
    norm_num,
   stage_scaling_monotone 1 4 3 (by norm_num) (by norm_num)⟩

/-!
## C2: multi-stage buffer net stitching

The level loops compute the stitched net names (`<output>_level0`, …) but
pass the bare port stems to the stage emitters, so every level's devices use
the true input net as gate and the true output net as drain.
-/

lemma bw_getD_zero : (buffer_widths (1 : ℚ) 1 2).getD 0 1 = 1 := by
  rw [buffer_widths_getD _ _ _ _ (by norm_num)]
  norm_num

lemma bw_getD_one : (buffer_widths (1 : ℚ) 1 2).getD 1 1 = 1 := by
  rw [buffer_widths_getD _ _ _ _ (by norm_num)]
  norm_num

lemma techT_max_pmos : techT.max_width TransType.pmos = 1 := rfl

lemma techT_max_nmos : techT.max_width TransType.nmos = 1 := rfl

lemma techT_name_pmos : techT.trans_name TransType.pmos = "TPMOS" := rfl

lemma techT_name_nmos : techT.trans_name TransType.nmos = "TNMOS" := rfl

lemma total_pmos_one : total_pmos_width (1 : ℚ) techT = 1 := by
  simp [total_pmos_width, techT]

lemma total_nmos_one : total_nmos_width (1 : ℚ) techT = 1 := by
  simp [total_nmos_width, techT]

lemma num_bins_one : num_bins 1 1 = 1 := by
  rw [num_bins_eq_ceil]
  norm_num

lemma last_bin_width_one : last_bin_width 1 1 = 0 := by
  rw [last_bin_width_eq_floor]
  norm_num

lemma bin_width_at_one : bin_width_at 1 1 0 = 1 := by
  unfold bin_width_at
  rw [last_bin_width_one]
  simp

lemma indexed_bin_widths_one : indexed_bin_widths 1 1 = [(0, 1)] := by
  unfold indexed_bin_widths
  rw [num_bins_one]
  have hr1 : List.range (Int.toNat 1) = [0] := by decide
  rw [hr1]
  simp [bin_width_at_one]

lemma regular_buffer_level_zero :
    regular_buffer_level true bufM techT "in" "out" 0
      = (CmdStatus.success,
         [[Chunk.str "Xpmos_level0_bin0 out in LVDD LVDD TPMOS_wrapper W=",
           Chunk.num 1],
          [Chunk.str "Xnmos_level0_bin0 out in LGND LGND TNMOS_wrapper W=",
           Chunk.num 1]]) := by
  unfold regular_buffer_level
  simp only [bufM, bw_getD_zero, techT_max_pmos, techT_max_nmos,
    techT_name_pmos, techT_name_nmos, total_pmos_one, total_nmos_one,
    indexed_bin_widths_one, run_seq,
    print_spice_regular_inverter_pmos_modeling,
    print_spice_regular_inverter_nmos_modeling]
  decide

lemma regular_buffer_level_one :
    regular_buffer_level true bufM techT "in" "out" 1
      = (CmdStatus.success,
         [[Chunk.str "Xpmos_level1_bin0 out in LVDD LVDD TPMOS_wrapper W=",
           Chunk.num 1],
          [Chunk.str "Xnmos_level1_bin0 out in LGND LGND TNMOS_wrapper W=",
           Chunk.num 1]]) := by
  unfold regular_buffer_level
  simp only [bufM, bw_getD_one, techT_max_pmos, techT_max_nmos,
    techT_name_pmos, techT_name_nmos, total_pmos_one, total_nmos_one,
    indexed_bin_widths_one, run_seq,
    print_spice_regular_inverter_pmos_modeling,
    print_spice_regular_inverter_nmos_modeling]
  decide

lemma regular_buffer_subckt_eval :
    print_spice_regular_buffer_subckt true bufM techT
      = ⟨Outcome.success,
         [[Chunk.str ".subckt buf2"],
          [Chunk.str "Xpmos_level0_bin0 out in LVDD LVDD TPMOS_wrapper W=",
           Chunk.num 1],
          [Chunk.str "Xnmos_level0_bin0 out in LGND LGND TNMOS_wrapper W=",
           Chunk.num 1],
          [Chunk.str "Xpmos_level1_bin0 out in LVDD LVDD TPMOS_wrapper W=",
           Chunk.num 1],
          [Chunk.str "Xnmos_level1_bin0 out in LGND LGND TNMOS_wrapper W=",
           Chunk.num 1],
          [Chunk.str ".ends"]]⟩ := by
  have hin : one_scalar_port bufM.input_ports = true := by decide
  have hout : one_scalar_port bufM.output_ports = true := by decide
  have hnl : bufM.buffer_num_levels = 2 := rfl
  have hinpfx : (bufM.input_ports.headD ⟨"", 0⟩).pfx = "in" := rfl
  have houtpfx : (bufM.output_ports.headD ⟨"", 0⟩).pfx = "out" := rfl
  have hname : bufM.model_name = "buf2" := rfl
  have hr2 : List.range 2 = [0, 1] := by decide
  unfold print_spice_regular_buffer_subckt
  simp only [hin, hout, hnl, hinpfx, houtpfx, hname, hr2, run_seq,
    regular_buffer_level_zero, regular_buffer_level_one]
  decide

/-- C2: the claim (and spec) says level 0's devices drain onto the
intermediate net `out_level0` and level 1's devices take their gate from
`out_level0`.  The source computes those stitched names but passes the bare
port stems to the stage emitters, so for a two-level buffer the level-0 PMOS
device drains onto the true output `out` and the final level's PMOS device's
gate is the true input `in`: every stage is wired directly between `in` and
`out`, and the net `out_level0` never appears. -/
theorem buffer_levels_not_stitched :
    (print_spice_regular_buffer_subckt true bufM techT).out = Outcome.success
    ∧ tokens (lineTextStr
        ((print_spice_regular_buffer_subckt true bufM techT).lines.getD 1 []))
      = ["Xpmos_level0_bin0", "out", "in", "LVDD", "LVDD", "TPMOS_wrapper", "W="]
    ∧ tokens (lineTextStr
        ((print_spice_regular_buffer_subckt true bufM techT).lines.getD 3 []))
      = ["Xpmos_level1_bin0", "out", "in", "LVDD", "LVDD", "TPMOS_wrapper", "W="]
    ∧ (∀ line ∈ (print_spice_regular_buffer_subckt true bufM techT).lines,
        ∀ tok ∈ tokens (lineTextStr line), tok ≠ "out_level0") := by
  rw [regular_buffer_subckt_eval]
  refine ⟨rfl, by decide, by decide, by decide⟩

end SpiceEssentialGates
